import Mathlib

/-!
Verification development for the pgmigrate migration engine
(`src/pgmigrate/loader.py`, `src/pgmigrate/runner.py`, `src/pgmigrate/db.py`,
`src/pgmigrate/models.py`).  Pure Python functions are embedded as Lean
functions; the database and the shell are embedded as explicit state /
event traces; raised exceptions become `Except` errors.
-/

namespace PGMigrate

/-! ## SHA-256 (executable embedding of `hashlib.sha256(...).hexdigest()`)

The loader computes `hashlib.sha256(content.encode("utf-8")).hexdigest()`
(`loader.py`, `_checksum`).  We embed SHA-256 over byte lists (`List Nat`,
each entry < 256) with 32-bit words as `Nat` reduced mod `2^32`. -/

def m32 : Nat := 4294967296

def add32 (a b : Nat) : Nat := (a + b) % m32

def rotr32 (x n : Nat) : Nat :=
  Nat.lor (x >>> n) ((x <<< (32 - n)) % m32)

def xor3 (a b c : Nat) : Nat := Nat.xor (Nat.xor a b) c

def bsig0 (x : Nat) : Nat := xor3 (rotr32 x 2) (rotr32 x 13) (rotr32 x 22)

def bsig1 (x : Nat) : Nat := xor3 (rotr32 x 6) (rotr32 x 11) (rotr32 x 25)

def ssig0 (x : Nat) : Nat := xor3 (rotr32 x 7) (rotr32 x 18) (x >>> 3)

def ssig1 (x : Nat) : Nat := xor3 (rotr32 x 17) (rotr32 x 19) (x >>> 10)

def chFn (x y z : Nat) : Nat :=
  Nat.xor (Nat.land x y) (Nat.land (Nat.xor x 4294967295) z)

def majFn (x y z : Nat) : Nat :=
  Nat.xor (Nat.xor (Nat.land x y) (Nat.land x z)) (Nat.land y z)

/-- Round constants of SHA-256 (FIPS 180-4). -/
def K256 : List Nat :=
  [1116352408, 1899447441, 3049323471, 3921009573, 961987163,
   1508970993, 2453635748, 2870763221, 3624381080, 310598401,
   607225278, 1426881987, 1925078388, 2162078206, 2614888103,
   3248222580, 3835390401, 4022224774, 264347078, 604807628,
   770255983, 1249150122, 1555081692, 1996064986, 2554220882,
   2821834349, 2952996808, 3210313671, 3336571891, 3584528711,
   113926993, 338241895, 666307205, 773529912, 1294757372,
   1396182291, 1695183700, 1986661051, 2177026350, 2456956037,
   2730485921, 2820302411, 3259730800, 3345764771, 3516065817,
   3600352804, 4094571909, 275423344, 430227734, 506948616,
   659060556, 883997877, 958139571, 1322822218, 1537002063,
   1747873779, 1955562222, 2024104815, 2227730452, 2361852424,
   2428436474, 2756734187, 3204031479, 3329325298]

/-- Big-endian byte expansion of `n` over `k` bytes (most significant first). -/
def beBytes (n : Nat) : Nat → List Nat
  | 0 => []
  | Nat.succ k => beBytes (n / 256) k ++ [n % 256]

/-- SHA-256 padding: append 0x80, zero bytes up to 56 mod 64, then the
bit length as 8 big-endian bytes. -/
def padMessage (msg : List Nat) : List Nat :=
  let len := msg.length
  let z := (120 - ((len + 1) % 64)) % 64
  msg ++ [128] ++ List.replicate z 0 ++ beBytes (len * 8) 8

/-- Split a byte list into 64-byte chunks (structural recursion so that the
kernel can evaluate it). -/
def chunksAux : List Nat → List Nat → List (List Nat)
  | [], cur => if cur.isEmpty then [] else [cur.reverse]
  | b :: rest, cur =>
    if cur.length = 63 then (b :: cur).reverse :: chunksAux rest []
    else chunksAux rest (b :: cur)

def chunks64 (l : List Nat) : List (List Nat) := chunksAux l []

/-- Combine bytes four at a time into big-endian 32-bit words. -/
def bytesToWords : List Nat → List Nat
  | a :: b :: c :: d :: rest =>
      (((a * 256 + b) * 256 + c) * 256 + d) :: bytesToWords rest
  | _ => []

/-- Extend the 16 message words to 64; `acc` holds the words produced so far
in reverse order (most recent first). -/
def scheduleRev : Nat → List Nat → List Nat
  | 0, acc => acc
  | Nat.succ fuel, acc =>
    let w2 := acc.getD 1 0
    let w7 := acc.getD 6 0
    let w15 := acc.getD 14 0
    let w16 := acc.getD 15 0
    scheduleRev fuel (add32 (add32 (ssig1 w2) w7) (add32 (ssig0 w15) w16) :: acc)

structure H8 where
  a : Nat
  b : Nat
  c : Nat
  d : Nat
  e : Nat
  f : Nat
  g : Nat
  h : Nat
deriving DecidableEq, Repr

def sha256Init : H8 :=
  ⟨1779033703, 3144134277, 1013904242, 2773480762,
   1359893119, 2600822924, 528734635, 1541459225⟩

def compressStep (st : H8) (kw : Nat × Nat) : H8 :=
  let t1 := add32 (add32 st.h (bsig1 st.e))
      (add32 (chFn st.e st.f st.g) (add32 kw.1 kw.2))
  let t2 := add32 (bsig0 st.a) (majFn st.a st.b st.c)
  ⟨add32 t1 t2, st.a, st.b, st.c, add32 st.d t1, st.e, st.f, st.g⟩

def compressBlock (st : H8) (block : List Nat) : H8 :=
  let ws := (scheduleRev 48 (bytesToWords block).reverse).reverse
  let fin := (K256.zip ws).foldl compressStep st
  ⟨add32 st.a fin.a, add32 st.b fin.b, add32 st.c fin.c, add32 st.d fin.d,
   add32 st.e fin.e, add32 st.f fin.f, add32 st.g fin.g, add32 st.h fin.h⟩

/-- SHA-256 digest of a byte list, as 32 bytes. -/
def sha256Bytes (msg : List Nat) : List Nat :=
  let st := (chunks64 (padMessage msg)).foldl compressBlock sha256Init
  beBytes st.a 4 ++ beBytes st.b 4 ++ beBytes st.c 4 ++ beBytes st.d 4 ++
  beBytes st.e 4 ++ beBytes st.f 4 ++ beBytes st.g 4 ++ beBytes st.h 4

def hexChar (n : Nat) : Char :=
  if n < 10 then Char.ofNat (48 + n) else Char.ofNat (87 + n)

/-- Lower-case hex digest of a byte list: `hashlib.sha256(bytes).hexdigest()`. -/
def sha256Hex (msg : List Nat) : String :=
  String.mk ((sha256Bytes msg).flatMap (fun b => [hexChar (b / 16), hexChar (b % 16)]))

/-! ## Loader checksum (`loader.py`: `_read_text`, `_checksum`, `load_migrations`)

`_read_text` opens `up.sql` with `path.open("r", encoding="utf-8")`, i.e. in
Python text mode with universal-newline translation: every `\r\n` pair and
every lone `\r` in the decoded text becomes `\n`.  `_checksum` re-encodes the
translated text as UTF-8 and hashes it.  Since UTF-8 decode/encode round-trips
the bytes exactly, and `\r`/`\n` are single bytes that cannot occur inside a
multi-byte UTF-8 sequence, the bytes hashed are exactly the raw file bytes
with the newline translation applied at byte level. -/

def translateNewlines : List Nat → List Nat
  | [] => []
  | 13 :: 10 :: rest => 10 :: translateNewlines rest
  | 13 :: rest => 10 :: translateNewlines rest
  | b :: rest => b :: translateNewlines rest

/-- The checksum `load_migrations` stores for a migration whose `up.sql` has
the given raw bytes on disk (`loader.py` lines 35-41 and 65-66). -/
def loaderStoredChecksum (rawUpBytes : List Nat) : String :=
  sha256Hex (translateNewlines rawUpBytes)

/-! ## Data model (`models.py`) -/

inductive Status
  | running
  | applied
  | failed
  | reverted
deriving DecidableEq, Repr

structure MigrationMeta where
  timeout_sec : Option Nat
  online_safe : Bool
  reversible : Bool
  tags : List String
  requires : List String
  pre_hooks : List String
  post_hooks : List String
deriving DecidableEq, Repr

/-- Defaults of `MigrationMeta` in `models.py`. -/
def defaultMeta : MigrationMeta :=
  { timeout_sec := none, online_safe := false, reversible := true,
    tags := [], requires := [], pre_hooks := [], post_hooks := [] }

/-- A migration definition loaded from disk (`models.py`).  The `up_sql`,
`down_sql` fields hold the script contents (the runner reads the files it
needs); `verify_sql = some c` means `verify.sql` exists on disk with content
`c` (`loader.py` stores `None` when the file is absent). -/
structure MigrationDefinition where
  migration_id : String
  up_sql : String
  down_sql : String
  verify_sql : Option String
  meta : MigrationMeta
  checksum : String
deriving DecidableEq, Repr

structure MigrationState where
  migration_id : String
  checksum : String
  status : Status
  applied_at : Option String
  applied_by : Option String
  execution_ms : Option Nat
  verify_ok : Option Bool
  log_ref : Option String
deriving DecidableEq, Repr

/-- The bookkeeping snapshot `fetch_states` returns: a dict keyed by
`migration_id` (`db.py`), embedded as a list with first-match lookup. -/
abbrev States := List MigrationState

def statesGet (states : States) (mid : String) : Option MigrationState :=
  states.find? (fun s => s.migration_id == mid)

/-- Raise sites of `MigrationRunnerError` / `DatabaseError`, one constructor
per distinct raise in `runner.py` / `db.py` that the claims touch. -/
inductive MigErr
  | checksumMismatch (mid : String)
  | inProgress (mid : String)
  | previousFailure (mid : String)
  | targetUnreachable (target : String)
  | targetNotApplied (target : String)
  | irreversible (mid : String)
  | tagNotAllowed (mid : String)
  | missingDependency (mid req : String)
  | notTracked (mid : String)
  | notFoundOnDisk (mid : String)
  | prodConfirmationRequired
  | confirmationRejected
  | userAborted
  | noAppliedToVerify
  | noVerifyTarget
  | noVerifySql (mid : String)
  | repairNeedsAccept
  | rowNotFound (mid : String)
  | lockHeld
  | executionError (msg : String)
  | attributeError (name : String)
deriving DecidableEq, Repr

/-! ## Python string helpers

`str.strip()` with no argument removes leading and trailing whitespace; we
model the ASCII whitespace characters (all inputs in this development are
ASCII or CJK, for which this agrees with Python).  `str.lower()` is modelled
on ASCII letters, which likewise agrees with Python on the inputs used. -/

def pyIsSpace (c : Char) : Bool :=
  c = ' ' ∨ c = '\t' ∨ c = '\n' ∨ c = '\r' ∨ c = '\x0b' ∨ c = '\x0c'

def pyStrip (s : String) : String :=
  String.mk (((s.data.dropWhile pyIsSpace).reverse.dropWhile pyIsSpace).reverse)

def asciiLowerChar (c : Char) : Char :=
  if 'A' ≤ c ∧ c ≤ 'Z' then Char.ofNat (c.toNat + 32) else c

def pyLower (s : String) : String :=
  String.mk (s.data.map asciiLowerChar)

/-! ## Planner (`runner.py`: `_validate_tags`, `_validate_dependencies`,
`_pending_for_apply`, `_pending_for_down`) -/

/-- `_validate_tags`: with a non-empty allow list, the migration's tags must
be a subset of it. -/
def validateTags (allowTags : List String) (m : MigrationDefinition) :
    Except MigErr Unit :=
  if allowTags.isEmpty then Except.ok ()
  else if m.meta.tags.all (fun t => allowTags.contains t) then Except.ok ()
  else Except.error (MigErr.tagNotAllowed m.migration_id)

/-- Ids of states with status `applied` (the `applied` set built at the top
of `_validate_dependencies`). -/
def appliedIds (states : States) : List String :=
  (states.filter (fun s => s.status == Status.applied)).map
    (fun s => s.migration_id)

def checkRequires (applied pendingIds : List String) (mid : String) :
    List String → Except MigErr Unit
  | [] => Except.ok ()
  | r :: rest =>
    if ¬ applied.contains r ∧ ¬ pendingIds.contains r then
      Except.error (MigErr.missingDependency mid r)
    else checkRequires applied pendingIds mid rest

def validateDependenciesAux (applied pendingIds : List String) :
    List MigrationDefinition → Except MigErr Unit
  | [] => Except.ok ()
  | m :: rest =>
    match checkRequires applied pendingIds m.migration_id m.meta.requires with
    | Except.error e => Except.error e
    | Except.ok _ => validateDependenciesAux applied pendingIds rest

/-- `_validate_dependencies`: each required id must be applied or present in
the pending list being validated (the source checks membership in the set of
all pending ids, not only the earlier ones). -/
def validateDependencies (states : States)
    (migrations : List MigrationDefinition) : Except MigErr Unit :=
  validateDependenciesAux (appliedIds states)
    (migrations.map (fun m => m.migration_id)) migrations

/-- The scanning loop of `_pending_for_apply`: stop past the target, then
per-migration checksum and status checks, tag validation, and collection. -/
def pendingForApplyScan (allowTags : List String) (states : States)
    (target : Option String) :
    List MigrationDefinition → Except MigErr (List MigrationDefinition)
  | [] => Except.ok []
  | m :: rest =>
    if (match target with
        | some t => decide (t < m.migration_id)
        | none => false) then
      Except.ok []
    else
      match statesGet states m.migration_id with
      | some s =>
        if s.checksum ≠ m.checksum then
          Except.error (MigErr.checksumMismatch m.migration_id)
        else if s.status = Status.running then
          Except.error (MigErr.inProgress m.migration_id)
        else if s.status = Status.failed then
          Except.error (MigErr.previousFailure m.migration_id)
        else if s.status = Status.applied then
          pendingForApplyScan allowTags states target rest
        else
          match validateTags allowTags m with
          | Except.error e => Except.error e
          | Except.ok _ =>
            match pendingForApplyScan allowTags states target rest with
            | Except.error e => Except.error e
            | Except.ok ps => Except.ok (m :: ps)
      | none =>
        match validateTags allowTags m with
        | Except.error e => Except.error e
        | Except.ok _ =>
          match pendingForApplyScan allowTags states target rest with
          | Except.error e => Except.error e
          | Except.ok ps => Except.ok (m :: ps)

/-- `_pending_for_apply`: scan, target-reachability check, dependency check. -/
def pendingForApply (allowTags : List String)
    (migrations : List MigrationDefinition) (states : States)
    (target : Option String) : Except MigErr (List MigrationDefinition) :=
  match pendingForApplyScan allowTags states target migrations with
  | Except.error e => Except.error e
  | Except.ok pending =>
    match target with
    | some t =>
      if (pending.getLast?.map (fun m => m.migration_id)) ≠ some t then
        Except.error (MigErr.targetUnreachable t)
      else
        match validateDependencies states pending with
        | Except.error e => Except.error e
        | Except.ok _ => Except.ok pending
    | none =>
      match validateDependencies states pending with
      | Except.error e => Except.error e
      | Except.ok _ => Except.ok pending

/-- The collection loop of `_pending_for_down`, run on the reversed
definition list: skip rows absent or not applied, collect until and including
the target; the Bool records whether the target was reached. -/
def pendingForDownScan (states : States) (target : String) :
    List MigrationDefinition → List MigrationDefinition × Bool
  | [] => ([], false)
  | m :: rest =>
    match statesGet states m.migration_id with
    | some s =>
      if s.status = Status.applied then
        if m.migration_id = target then ([m], true)
        else
          match pendingForDownScan states target rest with
          | (ps, seen) => (m :: ps, seen)
      else pendingForDownScan states target rest
    | none => pendingForDownScan states target rest

/-- The per-collected-migration loop of `_pending_for_down`: irreversibility
check (meta flag or empty trimmed `down.sql`), then tag validation. -/
def checkReversibility (allowTags : List String) :
    List MigrationDefinition → Except MigErr Unit
  | [] => Except.ok ()
  | m :: rest =>
    if m.meta.reversible = false ∨ pyStrip m.down_sql = "" then
      Except.error (MigErr.irreversible m.migration_id)
    else
      match validateTags allowTags m with
      | Except.error e => Except.error e
      | Except.ok _ => checkReversibility allowTags rest

/-- `_pending_for_down`. -/
def pendingForDown (allowTags : List String)
    (migrations : List MigrationDefinition) (states : States)
    (target : String) : Except MigErr (List MigrationDefinition) :=
  match pendingForDownScan states target migrations.reverse with
  | (pending, seen) =>
    if seen = false then Except.error (MigErr.targetNotApplied target)
    else
      match checkReversibility allowTags pending with
      | Except.error e => Except.error e
      | Except.ok _ => Except.ok pending

/-! ## Event trace model

Stateful effects of the runner against the database connection are embedded
as an event trace: bookkeeping writes (`set_status` upserts, `UPDATE`s,
`DELETE`s), transaction boundaries, advisory-lock acquisition and release,
and user-script SQL execution. -/

inductive Ev
  | acquireLock
  | releaseLock
  | upsertRow (row : MigrationState)
  | updateRow (mid : String)
  | deleteRow (mid : String)
  | commit
  | rollback
  | execScript (sqlText : String)
deriving DecidableEq, Repr

def isWrite : Ev → Bool
  | Ev.upsertRow _ => true
  | Ev.updateRow _ => true
  | Ev.deleteRow _ => true
  | _ => false

def isLockEv : Ev → Bool
  | Ev.acquireLock => true
  | Ev.releaseLock => true
  | _ => false

/-- Scan a trace tracking whether the advisory lock is held; `false` as soon
as a bookkeeping write occurs without the lock. -/
def writesUnderLockAux : Bool → List Ev → Bool
  | _, [] => true
  | _, Ev.acquireLock :: rest => writesUnderLockAux true rest
  | _, Ev.releaseLock :: rest => writesUnderLockAux false rest
  | held, e :: rest =>
    if isWrite e ∧ held = false then false
    else writesUnderLockAux held rest

def writesUnderLock (t : List Ev) : Bool := writesUnderLockAux false t

/-! ## Executor (`runner.py`: `_run_hooks`, `_execute_sql`, `_run_verify`,
`_apply_single`, `_revert_single`)

The outside world is summarised by an `ExecEnv`: whether a SQL text raises
(and with what message), whether a shell hook exits zero, the monotonic
elapsed milliseconds and the wall-clock timestamp. -/

structure ExecEnv where
  sqlResult : String → Option String
  hookResult : String → Bool
  durationMs : Nat
  now : String

/-- `_run_hooks`: run hooks in order; a non-zero exit raises. -/
def runHooks (env : ExecEnv) : List String → Except String Unit
  | [] => Except.ok ()
  | h :: rest =>
    if env.hookResult h then runHooks env rest
    else Except.error ("钩子失败: " ++ h)

/-- `_execute_sql` on the already include-expanded script content: a blank
script is skipped, otherwise the script runs (after the `SET statement_timeout`,
which writes no bookkeeping row and is omitted from the trace). -/
def executeSql (env : ExecEnv) (content : String) :
    List Ev × Except String Unit :=
  if pyStrip content = "" then ([], Except.ok ())
  else
    ([Ev.execScript content],
     match env.sqlResult content with
     | none => Except.ok ()
     | some msg => Except.error msg)

/-- `_run_verify`: empty or absent `verify.sql` content yields
`(False, "未提供 verify.sql")` without executing SQL; otherwise the script
runs and any exception is captured as `(False, message)`. -/
def runVerify (env : ExecEnv) (m : MigrationDefinition) :
    List Ev × Bool × Option String :=
  let sqlText := m.verify_sql.getD ""
  if sqlText = "" then ([], false, some "未提供 verify.sql")
  else
    match env.sqlResult sqlText with
    | none => ([Ev.execScript sqlText], true, none)
    | some msg => ([Ev.execScript sqlText], false, some msg)

/-- Python truthiness of the `verify_details` value. -/
def optTruthy : Option String → Bool
  | none => false
  | some s => s ≠ ""

/-- The `status="running"` upsert row (`set_status` leaves `execution_ms` and
`verify_ok` at their `None` defaults; all fields are replaced wholesale). -/
def runningRow (env : ExecEnv) (m : MigrationDefinition)
    (user logRef : String) : MigrationState :=
  { migration_id := m.migration_id, checksum := m.checksum,
    status := Status.running, applied_at := some env.now,
    applied_by := some user, execution_ms := none, verify_ok := none,
    log_ref := some logRef }

/-- The terminal `status="failed"` upsert row of the failure handler. -/
def failedRow (env : ExecEnv) (m : MigrationDefinition)
    (user logRef : String) : MigrationState :=
  { migration_id := m.migration_id, checksum := m.checksum,
    status := Status.failed, applied_at := some env.now,
    applied_by := some user, execution_ms := some env.durationMs,
    verify_ok := some false, log_ref := some logRef }

/-- The terminal `status="applied"` upsert row. -/
def appliedRow (env : ExecEnv) (m : MigrationDefinition)
    (user logRef : String) (vOk : Bool) : MigrationState :=
  { migration_id := m.migration_id, checksum := m.checksum,
    status := Status.applied, applied_at := some env.now,
    applied_by := some user, execution_ms := some env.durationMs,
    verify_ok := some vOk, log_ref := some logRef }

/-- The terminal `status="reverted"` upsert row (`verify_ok=None`). -/
def revertedRow (env : ExecEnv) (m : MigrationDefinition)
    (user logRef : String) : MigrationState :=
  { migration_id := m.migration_id, checksum := m.checksum,
    status := Status.reverted, applied_at := some env.now,
    applied_by := some user, execution_ms := some env.durationMs,
    verify_ok := none, log_ref := some logRef }

/-- The `except` handler shared by `_apply_single` and `_revert_single`:
rollback, upsert `failed`, commit, re-raise `MigrationRunnerError(str(exc))`. -/
def failureAtom (env : ExecEnv) (m : MigrationDefinition)
    (user logRef msg : String) : List Ev × Except MigErr Unit :=
  ([Ev.rollback, Ev.upsertRow (failedRow env m user logRef), Ev.commit],
   Except.error (MigErr.executionError msg))

/-- The success continuation of `_apply_single` after the user script and
verification: commit the user transaction, run post hooks (a failure there
still routes through the failure handler), then the terminal upsert. -/
def applySingleTail (env : ExecEnv) (m : MigrationDefinition)
    (user logRef : String) (vOk : Bool) : List Ev × Except MigErr Unit :=
  match runHooks env m.meta.post_hooks with
  | Except.error msg =>
    match failureAtom env m user logRef msg with
    | (t, r) => (Ev.commit :: t, r)
  | Except.ok _ =>
    ([Ev.commit, Ev.upsertRow (appliedRow env m user logRef vOk), Ev.commit],
     Except.ok ())

/-- The `try` body plus handler of `_apply_single` (everything after the
committed `running` marker). -/
def applySingleBody (env : ExecEnv) (m : MigrationDefinition)
    (user logRef : String) : List Ev × Except MigErr Unit :=
  match runHooks env m.meta.pre_hooks with
  | Except.error msg => failureAtom env m user logRef msg
  | Except.ok _ =>
    match executeSql env m.up_sql with
    | (upEvs, Except.error msg) =>
      match failureAtom env m user logRef msg with
      | (t, r) => (upEvs ++ t, r)
    | (upEvs, Except.ok _) =>
      match m.verify_sql with
      | none =>
        match applySingleTail env m user logRef true with
        | (t, r) => (upEvs ++ t, r)
      | some _ =>
        match runVerify env m with
        | (vEvs, vOk, vDetails) =>
          if vOk = false ∧ optTruthy vDetails then
            match failureAtom env m user logRef
                (m.migration_id ++ " 的 verify.sql 失败: " ++ vDetails.getD "") with
            | (t, r) => (upEvs ++ vEvs ++ t, r)
          else
            match applySingleTail env m user logRef vOk with
            | (t, r) => (upEvs ++ vEvs ++ t, r)

/-- `_apply_single`: committed `running` marker, then the guarded body. -/
def applySingle (env : ExecEnv) (m : MigrationDefinition)
    (user logRef : String) : List Ev × Except MigErr Unit :=
  match applySingleBody env m user logRef with
  | (t, r) =>
    (Ev.upsertRow (runningRow env m user logRef) :: Ev.commit :: t, r)

/-- The `try` body plus handler of `_revert_single`. -/
def revertSingleBody (env : ExecEnv) (m : MigrationDefinition)
    (user logRef : String) : List Ev × Except MigErr Unit :=
  match runHooks env m.meta.pre_hooks with
  | Except.error msg => failureAtom env m user logRef msg
  | Except.ok _ =>
    match executeSql env m.down_sql with
    | (downEvs, Except.error msg) =>
      match failureAtom env m user logRef msg with
      | (t, r) => (downEvs ++ t, r)
    | (downEvs, Except.ok _) =>
      match runHooks env m.meta.post_hooks with
      | Except.error msg =>
        match failureAtom env m user logRef msg with
        | (t, r) => (downEvs ++ Ev.commit :: t, r)
      | Except.ok _ =>
        (downEvs ++
          [Ev.commit, Ev.upsertRow (revertedRow env m user logRef), Ev.commit],
         Except.ok ())

/-- `_revert_single`. -/
def revertSingle (env : ExecEnv) (m : MigrationDefinition)
    (user logRef : String) : List Ev × Except MigErr Unit :=
  match revertSingleBody env m user logRef with
  | (t, r) =>
    (Ev.upsertRow (runningRow env m user logRef) :: Ev.commit :: t, r)

/-! ## Confirmation gate (`runner.py`: `_confirm_action`) -/

/-- The profile fields the runner consults (`config.py` / `ProfileConfig`). -/
structure Profile where
  schema : String
  confirm_prod : Bool
  interactive : Bool
  allow_tags : List String
  lock_key : Nat
deriving DecidableEq

/-- `_confirm_action`.  Branches in source order: the skip-next flag is
consumed; `confirm_prod` with the CLI override proceeds; non-interactive mode
proceeds unless production confirmation is required; production mode prompts
for the schema name; otherwise the y/N prompt.  Returns the new skip-next
flag paired with the gate outcome; `input` is the operator's reply. -/
def confirmAction (p : Profile) (confirmOverride skipNext nonInteractive : Bool)
    (input : String) : Bool × Except MigErr Unit :=
  if skipNext then (false, Except.ok ())
  else if p.confirm_prod ∧ confirmOverride then (false, Except.ok ())
  else if nonInteractive ∨ p.interactive = false then
    if p.confirm_prod ∧ confirmOverride = false then
      (false, Except.error MigErr.prodConfirmationRequired)
    else (false, Except.ok ())
  else if p.confirm_prod then
    if pyStrip input = p.schema then (false, Except.ok ())
    else (false, Except.error MigErr.confirmationRejected)
  else if ["y", "yes", "是"].contains (pyLower (pyStrip input)) then
    (false, Except.ok ())
  else (false, Except.error MigErr.userAborted)

/-! ## Verify read path (`runner.py`: `_select_verifications`, `verify`,
`_find_migration`) -/

structure VerifyResult where
  migration_id : String
  ok : Bool
  details : Option String
deriving DecidableEq, Repr

/-- `_find_migration`: linear scan of the loaded definitions. -/
def findMigration (migrations : List MigrationDefinition) (mid : String) :
    Except MigErr MigrationDefinition :=
  match migrations.find? (fun m => m.migration_id == mid) with
  | some m => Except.ok m
  | none => Except.error (MigErr.notFoundOnDisk mid)

/-- Python truthiness of `states.get(mid, None) and state.status == "applied"`. -/
def isAppliedIn (states : States) (m : MigrationDefinition) : Bool :=
  match statesGet states m.migration_id with
  | some s => s.status == Status.applied
  | none => false

/-- `_select_verifications`. -/
def selectVerifications (migrations : List MigrationDefinition)
    (states : States) (latest : Bool) (mid? : Option String) :
    Except MigErr (List MigrationDefinition) :=
  if latest then
    match (migrations.filter (isAppliedIn states)).getLast? with
    | none => Except.error MigErr.noAppliedToVerify
    | some last =>
      if last.verify_sql.isSome then Except.ok [last] else Except.ok []
  else
    match mid? with
    | some mid =>
      match findMigration migrations mid with
      | Except.error e => Except.error e
      | Except.ok m =>
        if m.verify_sql.isSome then Except.ok [m]
        else Except.error (MigErr.noVerifySql mid)
    | none => Except.ok (migrations.filter (fun m => m.verify_sql.isSome))

/-- `verify`: select targets, raise if the target list is empty, then collect
one `VerifyResult` per target (verification failures are captured in the
result, never raised). -/
def verifyOp (env : ExecEnv) (migrations : List MigrationDefinition)
    (states : States) (latest : Bool) (mid? : Option String) :
    Except MigErr (List VerifyResult) :=
  match selectVerifications migrations states latest mid? with
  | Except.error e => Except.error e
  | Except.ok targets =>
    if targets.isEmpty then Except.error MigErr.noVerifyTarget
    else
      Except.ok (targets.map (fun m =>
        match runVerify env m with
        | (_, ok, details) =>
          { migration_id := m.migration_id, ok := ok, details := details }))

/-! ## Engine operations (`runner.py`: `apply`, `rollback`, `repair`,
`retry`, `reset_failed`)

Each operation is embedded as the event trace it performs against the
connection together with its outcome; `lockAvailable` is the result of the
`pg_try_advisory_lock` call, `logRef` maps a migration id to its log-file
basename. -/

def applyLoop (env : ExecEnv) (user : String) (logRef : String → String) :
    List MigrationDefinition → List Ev × Except MigErr Unit
  | [] => ([], Except.ok ())
  | m :: rest =>
    match applySingle env m user (logRef m.migration_id) with
    | (t, Except.error e) => (t, Except.error e)
    | (t, Except.ok _) =>
      match applyLoop env user logRef rest with
      | (t2, r) => (t ++ t2, r)

def revertLoop (env : ExecEnv) (user : String) (logRef : String → String) :
    List MigrationDefinition → List Ev × Except MigErr Unit
  | [] => ([], Except.ok ())
  | m :: rest =>
    match revertSingle env m user (logRef m.migration_id) with
    | (t, Except.error e) => (t, Except.error e)
    | (t, Except.ok _) =>
      match revertLoop env user logRef rest with
      | (t2, r) => (t ++ t2, r)

/-- `apply`: plan, early return on an empty plan, confirmation gate, advisory
lock (non-blocking; failure raises `LockHeld` before any write), then the
per-migration executor; the lock is released on every exit path. -/
def applyOp (env : ExecEnv) (p : Profile) (lockAvailable : Bool)
    (user : String) (logRef : String → String)
    (migrations : List MigrationDefinition) (states : States)
    (target : Option String) (skipNext confirmOverride nonInteractive : Bool)
    (input : String) : List Ev × Except MigErr Unit :=
  match pendingForApply p.allow_tags migrations states target with
  | Except.error e => ([], Except.error e)
  | Except.ok pending =>
    if pending.isEmpty then ([], Except.ok ())
    else
      match (confirmAction p confirmOverride skipNext nonInteractive input).2 with
      | Except.error e => ([], Except.error e)
      | Except.ok _ =>
        if lockAvailable = false then ([], Except.error MigErr.lockHeld)
        else
          match applyLoop env user logRef pending with
          | (t, r) => (Ev.acquireLock :: (t ++ [Ev.releaseLock]), r)

/-- `rollback`. -/
def rollbackOp (env : ExecEnv) (p : Profile) (lockAvailable : Bool)
    (user : String) (logRef : String → String)
    (migrations : List MigrationDefinition) (states : States)
    (target : String) (skipNext confirmOverride nonInteractive : Bool)
    (input : String) : List Ev × Except MigErr Unit :=
  match pendingForDown p.allow_tags migrations states target with
  | Except.error e => ([], Except.error e)
  | Except.ok toRevert =>
    if toRevert.isEmpty then ([], Except.ok ())
    else
      match (confirmAction p confirmOverride skipNext nonInteractive input).2 with
      | Except.error e => ([], Except.error e)
      | Except.ok _ =>
        if lockAvailable = false then ([], Except.error MigErr.lockHeld)
        else
          match revertLoop env user logRef toRevert with
          | (t, r) => (Ev.acquireLock :: (t ++ [Ev.releaseLock]), r)

/-- `repair_checksum` (`db.py`): the `UPDATE` touches the row when present;
`rowcount == 0` raises before the caller commits. -/
def repairChecksumStates (states : States) (mid checksum : String) : States :=
  states.map (fun s =>
    if s.migration_id == mid then { s with checksum := checksum } else s)

/-- `repair`: requires the accept flag, requires the definition on disk,
updates the stored checksum, commits.  No advisory lock is taken. -/
def repairOp (migrations : List MigrationDefinition) (states : States)
    (mid : String) (accept : Bool) :
    List Ev × Except MigErr Unit × States :=
  if accept = false then ([], Except.error MigErr.repairNeedsAccept, states)
  else
    match findMigration migrations mid with
    | Except.error e => ([], Except.error e, states)
    | Except.ok m =>
      if (statesGet states mid).isSome then
        ([Ev.updateRow mid, Ev.commit], Except.ok (),
         repairChecksumStates states mid m.checksum)
      else ([], Except.error (MigErr.rowNotFound mid), states)

/-- `update_status_fields` as called by `retry` / `reset_failed`: set the
status to `reverted` and clear the descriptor fields. -/
def resetRowStates (states : States) (mid : String) : States :=
  states.map (fun s =>
    if s.migration_id == mid then
      { s with
        status := Status.reverted
        applied_at := none
        applied_by := none
        execution_ms := none
        verify_ok := none }
    else s)

/-- `reset_failed`: the row must exist, the action is confirmed, then either
the delete branch or the reset-to-reverted branch.  The delete branch calls
`db.delete_state` (`runner.py` line 208), a function `db.py` never defines:
in Python the attribute lookup raises `AttributeError` before any SQL runs,
so no row is deleted.  Returns the trace, the outcome, and the resulting
bookkeeping table. -/
def resetFailedOp (p : Profile) (states : States) (mid : String)
    (delete : Bool) (skipNext confirmOverride nonInteractive : Bool)
    (input : String) : List Ev × Except MigErr Unit × States :=
  match statesGet states mid with
  | none => ([], Except.error (MigErr.notTracked mid), states)
  | some _ =>
    match (confirmAction p confirmOverride skipNext nonInteractive input).2 with
    | Except.error e => ([], Except.error e, states)
    | Except.ok _ =>
      if delete then
        ([], Except.error (MigErr.attributeError "delete_state"), states)
      else
        ([Ev.updateRow mid, Ev.commit], Except.ok (), resetRowStates states mid)

/-- `retry`: definition on disk, row tracked, already-applied no-op, running
guard, optional checksum repair (committed before confirmation), confirmation,
the status reset to `reverted` (committed), then the nested `apply` targeted at
this migration with the skip-next-confirmation flag set, against the updated
bookkeeping snapshot. -/
def retryOp (env : ExecEnv) (p : Profile) (lockAvailable : Bool)
    (user : String) (logRef : String → String)
    (migrations : List MigrationDefinition) (states : States) (mid : String)
    (acceptChecksum force confirmOverride nonInteractive : Bool)
    (input : String) : List Ev × Except MigErr Unit :=
  match findMigration migrations mid with
  | Except.error e => ([], Except.error e)
  | Except.ok m =>
    match statesGet states mid with
    | none => ([], Except.error (MigErr.notTracked mid))
    | some st =>
      if st.status = Status.applied then ([], Except.ok ())
      else if st.status = Status.running ∧ force = false then
        ([], Except.error (MigErr.inProgress mid))
      else
        match (if st.checksum ≠ m.checksum then
                 if acceptChecksum = false then
                   (([] : List Ev), Except.error (MigErr.checksumMismatch mid),
                    states)
                 else
                   ([Ev.updateRow mid, Ev.commit], Except.ok (),
                    repairChecksumStates states mid m.checksum)
               else ([], Except.ok (), states)) with
        | (repairT, Except.error e, _) => (repairT, Except.error e)
        | (repairT, Except.ok _, states1) =>
          match (confirmAction p confirmOverride false nonInteractive input).2 with
          | Except.error e => (repairT, Except.error e)
          | Except.ok _ =>
            match applyOp env p lockAvailable user logRef migrations
                (resetRowStates states1 mid) (some mid) true confirmOverride
                nonInteractive input with
            | (t, r) =>
              (repairT ++ Ev.updateRow mid :: Ev.commit :: t, r)

/-! ## Spec-side comparison definitions

These restate, word for word, the planning rules of the specification
(section 4.3), to be compared with the functions embedded from the source. -/

/-- Stated from the spec's `plan_up` rules: per definition with a state,
checksum mismatch, `running`, `failed` fail; `applied` is skipped; otherwise
(`reverted` or no state) the migration is pending. -/
def applyPlanSpec (states : States) :
    List MigrationDefinition → Except MigErr (List MigrationDefinition)
  | [] => Except.ok []
  | m :: rest =>
    match statesGet states m.migration_id with
    | some s =>
      if s.checksum ≠ m.checksum then
        Except.error (MigErr.checksumMismatch m.migration_id)
      else if s.status = Status.running then
        Except.error (MigErr.inProgress m.migration_id)
      else if s.status = Status.failed then
        Except.error (MigErr.previousFailure m.migration_id)
      else if s.status = Status.applied then applyPlanSpec states rest
      else
        match applyPlanSpec states rest with
        | Except.error e => Except.error e
        | Except.ok ps => Except.ok (m :: ps)
    | none =>
      match applyPlanSpec states rest with
      | Except.error e => Except.error e
      | Except.ok ps => Except.ok (m :: ps)

/-- Stated from the spec's `plan_down` rules: iterate descending, skip
rows absent or not applied, collect until and including the target
(`none` when the target is never reached). -/
def downCollectSpec (states : States) (target : String) :
    List MigrationDefinition → Option (List MigrationDefinition)
  | [] => none
  | m :: rest =>
    if isAppliedIn states m then
      if m.migration_id = target then some [m]
      else
        match downCollectSpec states target rest with
        | some l => some (m :: l)
        | none => none
    else downCollectSpec states target rest

/-- The irreversibility predicate of the spec's `plan_down` rule:
`reversible = false` or blank `down.sql`. -/
def irrevPred (m : MigrationDefinition) : Bool :=
  m.meta.reversible == false || pyStrip m.down_sql == ""

/-- Stated from the spec's `plan_down` rules: collect on the reversed list,
fail `TargetNotApplied` when the target is never reached, fail `Irreversible`
at the first collected migration with `reversible = false` or blank
`down.sql`, otherwise return the collected (descending) list. -/
def downPlanSpec (states : States) (target : String)
    (migrations : List MigrationDefinition) :
    Except MigErr (List MigrationDefinition) :=
  match downCollectSpec states target migrations.reverse with
  | none => Except.error (MigErr.targetNotApplied target)
  | some collected =>
    match collected.find? irrevPred with
    | some bad => Except.error (MigErr.irreversible bad.migration_id)
    | none => Except.ok collected

/-- Traces free of advisory-lock events. -/
def lockFree (t : List Ev) : Bool := t.all (fun e => !(isLockEv e))

/-! ## Concrete fixtures used by counterexamples and witnesses -/

/-- A development-style profile: not production, interactive, no tag
restriction. -/
def pDev : Profile :=
  { schema := "public", confirm_prod := false, interactive := true,
    allow_tags := [], lock_key := 42 }

/-- An environment in which every SQL script and hook succeeds. -/
def envOk : ExecEnv :=
  { sqlResult := fun _ => none, hookResult := fun _ => true,
    durationMs := 5, now := "2026-01-01T00:00:00" }

/-- An environment in which every SQL script raises with message "boom". -/
def envBoom : ExecEnv :=
  { sqlResult := fun _ => some "boom", hookResult := fun _ => true,
    durationMs := 5, now := "2026-01-01T00:00:00" }

/-- A plain migration definition with no meta restrictions. -/
def defPlain : MigrationDefinition :=
  { migration_id := "0001_a", up_sql := "CREATE TABLE a (x int)",
    down_sql := "DROP TABLE a", verify_sql := none, meta := defaultMeta,
    checksum := "ca" }

/-- A migration that requires `0002_b`, which appears only later in the
pending list. -/
def defNeedsB : MigrationDefinition :=
  { migration_id := "0001_a", up_sql := "CREATE TABLE a (x int)",
    down_sql := "DROP TABLE a", verify_sql := none,
    meta := { defaultMeta with requires := ["0002_b"] }, checksum := "ca" }

def defB : MigrationDefinition :=
  { migration_id := "0002_b", up_sql := "CREATE TABLE b (x int)",
    down_sql := "DROP TABLE b", verify_sql := none, meta := defaultMeta,
    checksum := "cb" }

/-- A migration whose `verify.sql` exists on disk but is empty. -/
def defEmptyVerify : MigrationDefinition :=
  { migration_id := "0003_c", up_sql := "CREATE TABLE c (x int)",
    down_sql := "DROP TABLE c", verify_sql := some "", meta := defaultMeta,
    checksum := "cc" }

/-- The bookkeeping row for `defPlain` in status `applied`. -/
def stAppliedA : MigrationState :=
  { migration_id := "0001_a", checksum := "ca", status := Status.applied,
    applied_at := some "2026-01-01T00:00:00", applied_by := some "postgres",
    execution_ms := some 12, verify_ok := some true,
    log_ref := some "0001_a.log" }

/-- The bookkeeping row for `defPlain` in status `failed`. -/
def stFailedA : MigrationState :=
  { migration_id := "0001_a", checksum := "ca", status := Status.failed,
    applied_at := some "2026-01-01T00:00:00", applied_by := some "postgres",
    execution_ms := some 12, verify_ok := some false,
    log_ref := some "0001_a.log" }

/-- A migration with a non-empty `verify.sql`. -/
def defV1 : MigrationDefinition :=
  { migration_id := "0004_v", up_sql := "CREATE TABLE v (x int)",
    down_sql := "DROP TABLE v", verify_sql := some "SELECT 1",
    meta := defaultMeta, checksum := "cv" }

/-- The bookkeeping row for `defV1` in status `applied`. -/
def stAppliedV1 : MigrationState :=
  { migration_id := "0004_v", checksum := "cv", status := Status.applied,
    applied_at := some "2026-01-01T00:00:00", applied_by := some "postgres",
    execution_ms := some 12, verify_ok := some true,
    log_ref := some "0004_v.log" }

/-! # Theorems -/

/-- Standard test vector pinning the SHA-256 embedding: the digest of "abc". -/
theorem sha256_abc_vector :
    sha256Hex [97, 98, 99] =
      "ba7816bf8f01cfea414140de5dae2223b00361a396177a9cb410ff61f20015ad" := by
  decide

/-- Universal-newline translation is the identity on byte lists without a
carriage return. -/
theorem translateNewlines_of_no_cr :
    ∀ l : List Nat, 13 ∉ l → translateNewlines l = l := by
  intro l
  induction l using translateNewlines.induct with
  | case1 => intro _; rfl
  | case2 rest ih => intro h; exact absurd (List.mem_cons_self 13 _) h
  | case3 rest h1 ih => intro h; exact absurd (List.mem_cons_self 13 _) h
  | case4 b rest h1 h2 ih =>
    intro h
    have hb : b ≠ 13 := h2
    have hrec : translateNewlines (b :: rest) = b :: translateNewlines rest := by
      simp only [translateNewlines]
    rw [hrec, ih (fun hm => h (List.mem_cons_of_mem _ hm))]

/-- C2, counterexample: for the file bytes "a\r\nb" the checksum the loader
stores differs from the SHA-256 hex digest of the raw bytes on disk, because
`_read_text` opens the file in Python text mode and universal-newline
translation rewrites CRLF to LF before `_checksum` hashes. -/
theorem checksum_crlf_counterexample :
    loaderStoredChecksum [97, 13, 10, 98] ≠ sha256Hex [97, 13, 10, 98] := by
  decide

/-- C2, amended: for every `up.sql` whose raw bytes contain no carriage
return, the stored checksum equals the SHA-256 hex digest of the exact raw
bytes on disk. -/
theorem checksum_raw_bytes_when_no_cr :
    ∀ raw : List Nat, 13 ∉ raw → loaderStoredChecksum raw = sha256Hex raw := by
  intro raw h
  unfold loaderStoredChecksum
  rw [translateNewlines_of_no_cr raw h]

/-- Witness for `checksum_raw_bytes_when_no_cr` at the CR-free bytes "ab". -/
theorem checksum_raw_bytes_when_no_cr_witness :
    13 ∉ [97, 98] ∧ loaderStoredChecksum [97, 98] = sha256Hex [97, 98] :=
  ⟨by decide, checksum_raw_bytes_when_no_cr [97, 98] (by decide)⟩

/-- C1: `reset_failed` with the delete flag, on a tracked failed migration
and past the confirmation gate, does not remove the row and does not
complete successfully: `runner.py` line 208 calls `db.delete_state`, which
`db.py` never defines, so Python raises `AttributeError` and the bookkeeping
table is left unchanged (and no migration SQL runs: the trace is empty). -/
theorem reset_failed_delete_attribute_error :
    resetFailedOp pDev [stFailedA] "0001_a" true false false false "y" =
      ([], Except.error (MigErr.attributeError "delete_state"), [stFailedA]) ∧
    statesGet [stFailedA] "0001_a" = some stFailedA :=
  ⟨rfl, rfl⟩

/-- C3, counterexample: `_validate_dependencies` accepts a plan in which
`0001_a` requires `0002_b` while `0002_b` appears only later in the pending
list and is not applied; the claim says planning must fail with
`MissingDependency` here. -/
theorem missing_dependency_later_pending_counterexample :
    validateDependencies [] [defNeedsB, defB] = Except.ok () ∧
    defNeedsB.meta.requires = [defB.migration_id] ∧
    appliedIds [] = [] :=
  ⟨rfl, rfl, rfl⟩

/-- Each required id of a fixed migration passes iff it is applied or among
the pending ids. -/
theorem checkRequires_ok_iff (applied pids : List String) (mid : String) :
    ∀ reqs, checkRequires applied pids mid reqs = Except.ok () ↔
      ∀ r ∈ reqs, applied.contains r = true ∨ pids.contains r = true := by
  intro reqs
  induction reqs with
  | nil => simp [checkRequires]
  | cons r rest ih =>
    simp only [checkRequires]
    by_cases h1 : ¬ applied.contains r = true ∧ ¬ pids.contains r = true
    · simp only [if_pos h1]
      constructor
      · intro h; cases h
      · intro hall
        exact absurd (hall r (List.mem_cons_self r rest)) (by tauto)
    · simp only [if_neg h1, ih]
      constructor
      · intro hall
        intro r2 hr2
        rcases List.mem_cons.mp hr2 with h | h
        · subst h; tauto
        · exact hall r2 h
      · intro hall r2 hr2
        exact hall r2 (List.mem_cons_of_mem r hr2)

/-- The dependency loop passes iff every migration's requirements pass. -/
theorem validateDependenciesAux_ok_iff (applied pids : List String) :
    ∀ ms, validateDependenciesAux applied pids ms = Except.ok () ↔
      ∀ m ∈ ms, ∀ r ∈ m.meta.requires,
        applied.contains r = true ∨ pids.contains r = true := by
  intro ms
  induction ms with
  | nil => simp [validateDependenciesAux]
  | cons m rest ih =>
    simp only [validateDependenciesAux]
    cases hc : checkRequires applied pids m.migration_id m.meta.requires with
    | error e =>
      have hm : ¬ ∀ r ∈ m.meta.requires,
          applied.contains r = true ∨ pids.contains r = true := by
        intro hall
        rw [(checkRequires_ok_iff applied pids m.migration_id
          m.meta.requires).mpr hall] at hc
        cases hc
      constructor
      · intro h; cases h
      · intro hall
        exact absurd (fun r hr => hall m (List.mem_cons_self m rest) r hr) hm
    | ok u =>
      cases u
      rw [ih]
      constructor
      · intro hall m2 hm2
        rcases List.mem_cons.mp hm2 with h | h
        · subst h
          exact (checkRequires_ok_iff applied pids m2.migration_id
            m2.meta.requires).mp hc
        · exact hall m2 h
      · intro hall m2 hm2
        exact hall m2 (List.mem_cons_of_mem m hm2)

/-- C3, amended: apply planning's dependency validation succeeds iff every
id required by a pending migration is either already applied or present
anywhere in the pending list (earlier or later); a required id that appears
only later in the pending list is accepted. -/
theorem validate_dependencies_ok_iff :
    ∀ (states : States) (migrations : List MigrationDefinition),
      validateDependencies states migrations = Except.ok () ↔
      ∀ m ∈ migrations, ∀ r ∈ m.meta.requires,
        r ∈ appliedIds states ∨
        r ∈ migrations.map (fun x => x.migration_id) := by
  intro states migrations
  unfold validateDependencies
  rw [validateDependenciesAux_ok_iff]
  constructor
  · intro hall m hm r hr
    rcases hall m hm r hr with h | h
    · exact Or.inl (List.elem_iff.mp h)
    · exact Or.inr (List.elem_iff.mp h)
  · intro hall m hm r hr
    rcases hall m hm r hr with h | h
    · exact Or.inl (List.elem_iff.mpr h)
    · exact Or.inr (List.elem_iff.mpr h)

/-- Witness for `validate_dependencies_ok_iff` at the forward-requirement
plan `[defNeedsB, defB]`. -/
theorem validate_dependencies_ok_iff_witness :
    validateDependencies [] [defNeedsB, defB] = Except.ok () ↔
    ∀ m ∈ [defNeedsB, defB], ∀ r ∈ m.meta.requires,
      r ∈ appliedIds [] ∨
      r ∈ [defNeedsB, defB].map (fun x => x.migration_id) :=
  validate_dependencies_ok_iff [] [defNeedsB, defB]

/-- C6, counterexample: in the interactive non-production branch the input
"是" is accepted by `_confirm_action` although its trimmed lower-cased form
is neither "y" nor "yes". -/
theorem confirm_accepts_shi_counterexample :
    (confirmAction pDev false false false "是").2 = Except.ok () ∧
    pyLower (pyStrip "是") ≠ "y" ∧ pyLower (pyStrip "是") ≠ "yes" :=
  ⟨rfl, by decide, by decide⟩

/-- C6, amended: in the interactive non-production branch the action
proceeds iff the input, trimmed and lower-cased, is exactly "y", "yes" or
"是"; any other input fails with `UserAborted`. -/
theorem confirm_interactive_iff :
    ∀ (p : Profile) (confirmOverride : Bool) (input : String),
      p.confirm_prod = false → p.interactive = true →
      ((confirmAction p confirmOverride false false input).2 = Except.ok () ↔
        (pyLower (pyStrip input) = "y" ∨ pyLower (pyStrip input) = "yes" ∨
          pyLower (pyStrip input) = "是")) := by
  intro p o input h1 h2
  simp only [confirmAction, h1, h2]
  by_cases hc : ["y", "yes", "是"].contains (pyLower (pyStrip input)) = true
  · simp only [if_pos hc]
    simp only [List.contains_cons, List.contains_nil, Bool.or_eq_true,
      beq_iff_eq] at hc
    simp
    tauto
  · simp only [if_neg hc]
    simp only [List.contains_cons, List.contains_nil, Bool.or_eq_true,
      beq_iff_eq] at hc
    push_neg at hc
    simp [hc]

/-- Witness for `confirm_interactive_iff` at the input "  YES ". -/
theorem confirm_interactive_iff_witness :
    (confirmAction pDev false false false "  YES ").2 = Except.ok () ↔
    (pyLower (pyStrip "  YES ") = "y" ∨ pyLower (pyStrip "  YES ") = "yes" ∨
      pyLower (pyStrip "  YES ") = "是") :=
  confirm_interactive_iff pDev false "  YES " rfl rfl

/-- C5, counterexample: with one applied migration that has no `verify.sql`,
latest-mode selection returns the empty list and `verify` then raises
(`未找到需要验证的迁移`) instead of returning an empty successful result. -/
theorem verify_latest_no_verify_sql_counterexample :
    selectVerifications [defPlain] [stAppliedA] true none = Except.ok [] ∧
    verifyOp envOk [defPlain] [stAppliedA] true none =
      Except.error MigErr.noVerifyTarget :=
  ⟨rfl, rfl⟩

/-- C5, amended: latest mode runs verification only for the last applied
migration in definition order; when that migration has no `verify.sql` the
operation fails with the no-targets error (it does not return an empty
result); when it has one, the outcome of the verification is captured in the
returned entry (ok flag and details), never raised. -/
theorem verify_latest_behavior :
    ∀ (env : ExecEnv) (migrations : List MigrationDefinition) (states : States)
      (m : MigrationDefinition),
      (migrations.filter (isAppliedIn states)).getLast? = some m →
      (m.verify_sql = none →
        verifyOp env migrations states true none =
          Except.error MigErr.noVerifyTarget) ∧
      (∀ v, m.verify_sql = some v →
        verifyOp env migrations states true none =
          Except.ok [{ migration_id := m.migration_id,
                       ok := (runVerify env m).2.1,
                       details := (runVerify env m).2.2 }]) := by
  intro env migrations states m hlast
  constructor
  · intro hnone
    unfold verifyOp selectVerifications
    rw [hlast]
    simp [hnone]
  · intro v hv
    unfold verifyOp selectVerifications
    rw [hlast]
    rcases hr : runVerify env m with ⟨evs, okFlag, details⟩
    simp [hv, hr]

/-- Witness for `verify_latest_behavior` with an applied migration that has
a `verify.sql` and an environment in which it succeeds. -/
theorem verify_latest_behavior_witness :
    verifyOp envOk [defV1] [stAppliedV1] true none =
      Except.ok [{ migration_id := defV1.migration_id,
                   ok := (runVerify envOk defV1).2.1,
                   details := (runVerify envOk defV1).2.2 }] :=
  (verify_latest_behavior envOk [defV1] [stAppliedV1] defV1 rfl).2 "SELECT 1" rfl

/-- Tag validation with an empty allow list always passes. -/
theorem validateTags_nil (m : MigrationDefinition) :
    validateTags [] m = Except.ok () := rfl

/-- With no target and no tag restriction, the apply scan agrees with the
spec's per-definition case analysis. -/
theorem pendingForApplyScan_eq_spec (states : States) :
    ∀ migs, pendingForApplyScan [] states none migs = applyPlanSpec states migs := by
  intro migs
  induction migs with
  | nil => rfl
  | cons m rest ih =>
    simp only [pendingForApplyScan, applyPlanSpec, validateTags_nil]
    cases hs : statesGet states m.migration_id with
    | some s => simp [ih]
    | none => simp [ih]

/-- Every migration in a successful spec plan comes from the input list. -/
theorem applyPlanSpec_ok_mem (states : States) :
    ∀ migs p, applyPlanSpec states migs = Except.ok p → ∀ x ∈ p, x ∈ migs := by
  intro migs
  induction migs with
  | nil =>
    intro p hp x hx
    simp only [applyPlanSpec] at hp
    cases hp
    cases hx
  | cons m rest ih =>
    intro p
    cases hs : statesGet states m.migration_id with
    | some s =>
      simp only [applyPlanSpec, hs]
      by_cases h1 : s.checksum ≠ m.checksum
      · rw [if_pos h1]; intro hp; cases hp
      · rw [if_neg h1]
        by_cases h2 : s.status = Status.running
        · rw [if_pos h2]; intro hp; cases hp
        · rw [if_neg h2]
          by_cases h3 : s.status = Status.failed
          · rw [if_pos h3]; intro hp; cases hp
          · rw [if_neg h3]
            by_cases h4 : s.status = Status.applied
            · rw [if_pos h4]
              intro hp x hx
              exact List.mem_cons_of_mem m (ih p hp x hx)
            · rw [if_neg h4]
              cases hrest : applyPlanSpec states rest with
              | error e => intro hp; cases hp
              | ok ps =>
                intro hp x hx
                cases hp
                rcases List.mem_cons.mp hx with h | h
                · subst h; exact List.mem_cons_self x rest
                · exact List.mem_cons_of_mem m (ih ps hrest x h)
    | none =>
      simp only [applyPlanSpec, hs]
      cases hrest : applyPlanSpec states rest with
      | error e => intro hp; cases hp
      | ok ps =>
        intro hp x hx
        cases hp
        rcases List.mem_cons.mp hx with h | h
        · subst h; exact List.mem_cons_self x rest
        · exact List.mem_cons_of_mem m (ih ps hrest x h)

/-- Dependency validation trivially passes when no migration requires
anything. -/
theorem validateDependencies_ok_of_no_requires (states : States)
    (ms : List MigrationDefinition) (h : ∀ m ∈ ms, m.meta.requires = []) :
    validateDependencies states ms = Except.ok () := by
  unfold validateDependencies
  rw [validateDependenciesAux_ok_iff]
  intro m hm r hr
  rw [h m hm] at hr
  cases hr

/-- C8: with no target and no tag restriction, and no `requires` in play,
`_pending_for_apply` realises exactly the claim's case analysis: per
definition with a state, a checksum mismatch fails `ChecksumMismatch`,
`running` fails `InProgress`, `failed` fails `PreviousFailure`, `applied` is
skipped, and otherwise (`reverted` or no state) the migration is pending. -/
theorem pending_for_apply_matches_spec :
    ∀ (migrations : List MigrationDefinition) (states : States),
      (∀ m ∈ migrations, m.meta.requires = []) →
      pendingForApply [] migrations states none = applyPlanSpec states migrations := by
  intro migs states hreq
  unfold pendingForApply
  rw [pendingForApplyScan_eq_spec]
  cases hp : applyPlanSpec states migs with
  | error e => rfl
  | ok p =>
    have hdep : validateDependencies states p = Except.ok () :=
      validateDependencies_ok_of_no_requires states p
        (fun m hm => hreq m (applyPlanSpec_ok_mem states migs p hp m hm))
    simp [hdep]

/-- Witness for `pending_for_apply_matches_spec`: a fresh database plans both
fixture migrations, and the failed row blocks planning. -/
theorem pending_for_apply_matches_spec_witness :
    pendingForApply [] [defPlain, defB] [] none =
      applyPlanSpec [] [defPlain, defB] ∧
    pendingForApply [] [defPlain, defB] [stFailedA] none =
      applyPlanSpec [stFailedA] [defPlain, defB] ∧
    applyPlanSpec [] [defPlain, defB] = Except.ok [defPlain, defB] ∧
    applyPlanSpec [stFailedA] [defPlain, defB] =
      Except.error (MigErr.previousFailure "0001_a") :=
  ⟨pending_for_apply_matches_spec [defPlain, defB] [] (by decide),
   pending_for_apply_matches_spec [defPlain, defB] [stFailedA] (by decide),
   rfl, rfl⟩

/-- The rollback collection loop agrees with the spec's collect-until-target
description: it yields the collected list exactly when the target was seen. -/
theorem downCollectSpec_eq_scan (states : States) (target : String) :
    ∀ l, downCollectSpec states target l =
      (if (pendingForDownScan states target l).2 = true then
        some (pendingForDownScan states target l).1
      else none) := by
  intro l
  induction l with
  | nil => rfl
  | cons m rest ih =>
    cases hs : statesGet states m.migration_id with
    | some s =>
      simp only [downCollectSpec, pendingForDownScan, isAppliedIn, hs]
      by_cases ha : s.status = Status.applied
      · by_cases ht : m.migration_id = target
        · simp [ha, ht]
        · rcases hscan : pendingForDownScan states target rest with ⟨ps, seen⟩
          rw [hscan] at ih
          cases seen with
          | true => simp [ha, ht, ih, hscan, beq_iff_eq]
          | false => simp [ha, ht, ih, hscan, beq_iff_eq]
      · simp [ha, ih, beq_iff_eq]
    | none =>
      simp only [downCollectSpec, pendingForDownScan, isAppliedIn, hs]
      simp [ih]

/-- The reversibility loop fails at the first collected migration that is
irreversible or has a blank `down.sql`, and passes otherwise. -/
theorem checkReversibility_eq_find :
    ∀ l, checkReversibility [] l =
      (match l.find? irrevPred with
        | some bad => Except.error (MigErr.irreversible bad.migration_id)
        | none => Except.ok ()) := by
  intro l
  induction l with
  | nil => rfl
  | cons m rest ih =>
    simp only [checkReversibility, validateTags_nil, List.find?_cons]
    by_cases hbad : m.meta.reversible = false ∨ pyStrip m.down_sql = ""
    · have hb : irrevPred m = true := by
        unfold irrevPred
        rcases hbad with h | h <;> simp [h]
      simp [hbad, hb]
    · push_neg at hbad
      have h1 : m.meta.reversible = true := by
        cases hrev : m.meta.reversible
        · exact absurd hrev hbad.1
        · rfl
      have hb : irrevPred m = false := by
        unfold irrevPred
        rw [h1]
        simp [beq_eq_false_iff_ne.mpr hbad.2]
      simp [hbad.1, hbad.2, hb, ih]

/-- C9: with no tag restriction, `_pending_for_down` equals the spec's
description: iterate definitions in descending order skipping rows absent or
not applied, collect until and including the target (else `TargetNotApplied`),
fail `Irreversible` at the first collected migration with `reversible = false`
or blank `down.sql`, and return the collected (descending) list as the
execution order. -/
theorem pending_for_down_matches_spec :
    ∀ (migrations : List MigrationDefinition) (states : States) (target : String),
      pendingForDown [] migrations states target =
        downPlanSpec states target migrations := by
  intro migs states target
  unfold pendingForDown downPlanSpec
  rw [downCollectSpec_eq_scan]
  rcases hscan : pendingForDownScan states target migs.reverse with ⟨pending, seen⟩
  cases seen with
  | false => simp
  | true =>
    simp only [if_pos rfl]
    rw [checkReversibility_eq_find]
    cases hf : List.find? irrevPred pending with
    | some bad => simp [hf]
    | none => simp [hf]

/-- `_apply_single` is the committed running marker followed by the guarded
body. -/
theorem applySingle_eq (env : ExecEnv) (m : MigrationDefinition)
    (user logRef : String) :
    applySingle env m user logRef =
      (Ev.upsertRow (runningRow env m user logRef) :: Ev.commit ::
        (applySingleBody env m user logRef).1,
       (applySingleBody env m user logRef).2) := by
  unfold applySingle
  rcases applySingleBody env m user logRef with ⟨t, r⟩
  rfl

/-- Any failure in the guarded body of `_apply_single` ends in the failure
handler: the trace ends with a rollback, the failed-row upsert and a commit,
and the error is an execution error carrying a message. -/
theorem applySingleBody_error_shape :
    ∀ (env : ExecEnv) (m : MigrationDefinition) (user logRef : String)
      (e : MigErr),
      (applySingleBody env m user logRef).2 = Except.error e →
      ∃ msg t, e = MigErr.executionError msg ∧
        (applySingleBody env m user logRef).1 =
          t ++ [Ev.rollback, Ev.upsertRow (failedRow env m user logRef),
                Ev.commit] := by
  intro env m user logRef e
  unfold applySingleBody
  cases hpre : runHooks env m.meta.pre_hooks with
  | error msg =>
    simp only [failureAtom]
    intro he
    injection he with he2
    exact ⟨msg, [], he2.symm, by simp⟩
  | ok u =>
    cases u
    rcases hup : executeSql env m.up_sql with ⟨upEvs, upRes⟩
    cases upRes with
    | error msg =>
      simp only [failureAtom]
      intro he
      injection he with he2
      exact ⟨msg, upEvs, he2.symm, by simp⟩
    | ok u2 =>
      cases u2
      cases hv : m.verify_sql with
      | none =>
        simp only [applySingleTail]
        cases hpost : runHooks env m.meta.post_hooks with
        | error msg =>
          simp only [failureAtom]
          intro he
          injection he with he2
          exact ⟨msg, upEvs ++ [Ev.commit], he2.symm, by simp⟩
        | ok u3 =>
          cases u3
          intro he
          cases he
      | some v =>
        rcases hrv : runVerify env m with ⟨vEvs, vOk, vDetails⟩
        simp only []
        by_cases hcond : vOk = false ∧ optTruthy vDetails = true
        · rw [if_pos hcond]
          simp only [failureAtom]
          intro he
          injection he with he2
          exact ⟨m.migration_id ++ " 的 verify.sql 失败: " ++ vDetails.getD "",
            upEvs ++ vEvs, he2.symm, by simp⟩
        · rw [if_neg hcond]
          simp only [applySingleTail]
          cases hpost : runHooks env m.meta.post_hooks with
          | error msg =>
            simp only [failureAtom]
            intro he
            injection he with he2
            exact ⟨msg, upEvs ++ vEvs ++ [Ev.commit], he2.symm, by simp⟩
          | ok u3 =>
            cases u3
            intro he
            cases he

/-- C7: whenever `_apply_single` fails (failing SQL, failing pre or post
hook, or failing verification), it rolls back, commits the upsert of the row
with status `failed`, `execution_ms` set, `verify_ok = false` and the same
`log_ref`, and re-raises an execution error carrying the underlying
message. -/
theorem apply_failure_atom :
    ∀ (env : ExecEnv) (m : MigrationDefinition) (user logRef : String)
      (e : MigErr),
      (applySingle env m user logRef).2 = Except.error e →
      ∃ msg t, e = MigErr.executionError msg ∧
        (applySingle env m user logRef).1 =
          t ++ [Ev.rollback, Ev.upsertRow (failedRow env m user logRef),
                Ev.commit] ∧
        (failedRow env m user logRef).status = Status.failed ∧
        (failedRow env m user logRef).verify_ok = some false ∧
        (failedRow env m user logRef).execution_ms = some env.durationMs ∧
        (failedRow env m user logRef).log_ref = some logRef := by
  intro env m user logRef e he
  rw [applySingle_eq] at he
  rcases applySingleBody_error_shape env m user logRef e he
    with ⟨msg, t, hmsg, htrace⟩
  refine ⟨msg, Ev.upsertRow (runningRow env m user logRef) :: Ev.commit :: t,
    hmsg, ?_, rfl, rfl, rfl, rfl⟩
  rw [applySingle_eq]
  simp [htrace]

/-- Witness for `apply_failure_atom`: a concrete run whose `up.sql` raises
with message "boom". -/
theorem apply_failure_atom_witness :
    ∃ msg t, MigErr.executionError "boom" = MigErr.executionError msg ∧
      (applySingle envBoom defPlain "postgres" "0001_a.log").1 =
        t ++ [Ev.rollback,
              Ev.upsertRow (failedRow envBoom defPlain "postgres" "0001_a.log"),
              Ev.commit] ∧
      (failedRow envBoom defPlain "postgres" "0001_a.log").status =
        Status.failed ∧
      (failedRow envBoom defPlain "postgres" "0001_a.log").verify_ok =
        some false ∧
      (failedRow envBoom defPlain "postgres" "0001_a.log").execution_ms =
        some envBoom.durationMs ∧
      (failedRow envBoom defPlain "postgres" "0001_a.log").log_ref =
        some "0001_a.log" :=
  apply_failure_atom envBoom defPlain "postgres" "0001_a.log"
    (MigErr.executionError "boom") rfl

/-- C10: a migration whose `verify.sql` exists but is empty is marked failed
by apply even though its `up.sql` executed successfully: `_run_verify`
returns the "未提供 verify.sql" failure, which `_apply_single` routes into
the failure handler, committing `status = failed`, `verify_ok = false`. -/
theorem empty_verify_sql_marks_failed :
    ∀ (env : ExecEnv) (m : MigrationDefinition) (user logRef : String),
      m.verify_sql = some "" →
      runHooks env m.meta.pre_hooks = Except.ok () →
      (executeSql env m.up_sql).2 = Except.ok () →
      applySingle env m user logRef =
        (Ev.upsertRow (runningRow env m user logRef) :: Ev.commit ::
          ((executeSql env m.up_sql).1 ++
            [Ev.rollback, Ev.upsertRow (failedRow env m user logRef),
             Ev.commit]),
         Except.error (MigErr.executionError
           (m.migration_id ++ " 的 verify.sql 失败: 未提供 verify.sql"))) ∧
      (failedRow env m user logRef).status = Status.failed ∧
      (failedRow env m user logRef).verify_ok = some false := by
  intro env m user logRef hv hpre hup
  refine ⟨?_, rfl, rfl⟩
  rw [applySingle_eq]
  unfold applySingleBody
  rw [hpre]
  rcases hup2 : executeSql env m.up_sql with ⟨upEvs, upRes⟩
  rw [hup2] at hup
  simp only at hup
  subst hup
  have hrv : runVerify env m = ([], false, some "未提供 verify.sql") := by
    unfold runVerify
    rw [hv]
    rfl
  simp [hv, hrv, optTruthy, failureAtom]
  rw [String.append_assoc]
  congr 1

/-- Witness for `empty_verify_sql_marks_failed` at the fixture with an empty
`verify.sql` in an environment where all SQL succeeds. -/
theorem empty_verify_sql_marks_failed_witness :
    applySingle envOk defEmptyVerify "postgres" "0003_c.log" =
      (Ev.upsertRow (runningRow envOk defEmptyVerify "postgres" "0003_c.log") ::
        Ev.commit ::
        ((executeSql envOk defEmptyVerify.up_sql).1 ++
          [Ev.rollback,
           Ev.upsertRow (failedRow envOk defEmptyVerify "postgres" "0003_c.log"),
           Ev.commit]),
       Except.error (MigErr.executionError
         (defEmptyVerify.migration_id ++
           " 的 verify.sql 失败: 未提供 verify.sql"))) ∧
    (failedRow envOk defEmptyVerify "postgres" "0003_c.log").status =
      Status.failed ∧
    (failedRow envOk defEmptyVerify "postgres" "0003_c.log").verify_ok =
      some false :=
  empty_verify_sql_marks_failed envOk defEmptyVerify "postgres" "0003_c.log"
    rfl rfl rfl

/-! ## Lock-discipline lemmas: the executor traces contain no lock events,
so all their writes inherit the lock state of the surrounding operation. -/

theorem lockFree_cons (e : Ev) (l : List Ev) :
    lockFree (e :: l) = (!isLockEv e && lockFree l) := by
  simp [lockFree]

theorem lockFree_nil : lockFree [] = true := rfl

theorem lockFree_append (a b : List Ev) :
    lockFree (a ++ b) = (lockFree a && lockFree b) := by
  simp [lockFree, List.all_append]

theorem lockFree_failureAtom (env : ExecEnv) (m : MigrationDefinition)
    (user logRef msg : String) :
    lockFree (failureAtom env m user logRef msg).1 = true := rfl

theorem lockFree_executeSql (env : ExecEnv) (content : String) :
    lockFree (executeSql env content).1 = true := by
  unfold executeSql
  split
  · rfl
  · rfl

theorem lockFree_runVerify (env : ExecEnv) (m : MigrationDefinition) :
    lockFree (runVerify env m).1 = true := by
  unfold runVerify
  simp only []
  split
  · rfl
  · cases env.sqlResult (m.verify_sql.getD "") <;> rfl

theorem lockFree_applySingleTail (env : ExecEnv) (m : MigrationDefinition)
    (user logRef : String) (vOk : Bool) :
    lockFree (applySingleTail env m user logRef vOk).1 = true := by
  unfold applySingleTail
  cases hpost : runHooks env m.meta.post_hooks with
  | error msg => simp [failureAtom, lockFree, isLockEv]
  | ok u => cases u; simp [lockFree, isLockEv]

theorem lockFree_applySingleBody (env : ExecEnv) (m : MigrationDefinition)
    (user logRef : String) :
    lockFree (applySingleBody env m user logRef).1 = true := by
  unfold applySingleBody
  cases hpre : runHooks env m.meta.pre_hooks with
  | error msg => exact lockFree_failureAtom env m user logRef msg
  | ok u =>
    cases u
    rcases hup : executeSql env m.up_sql with ⟨upEvs, upRes⟩
    have hupf : lockFree upEvs = true := by
      have h := lockFree_executeSql env m.up_sql
      rw [hup] at h
      exact h
    cases upRes with
    | error msg =>
      simp only []
      simp [failureAtom, lockFree_append, lockFree_cons, lockFree_nil,
        isLockEv, hupf]
    | ok u2 =>
      cases u2
      cases hv : m.verify_sql with
      | none =>
        simp only []
        rcases htail : applySingleTail env m user logRef true with ⟨t, r⟩
        have htf : lockFree t = true := by
          have h := lockFree_applySingleTail env m user logRef true
          rw [htail] at h
          exact h
        simp [htail, lockFree_append, hupf, htf]
      | some v =>
        rcases hrv : runVerify env m with ⟨vEvs, vOk, vDetails⟩
        have hvf : lockFree vEvs = true := by
          have h := lockFree_runVerify env m
          rw [hrv] at h
          exact h
        simp only []
        split
        · simp [failureAtom, lockFree_append, lockFree_cons, lockFree_nil,
            isLockEv, hupf, hvf]
        · rcases htail : applySingleTail env m user logRef vOk with ⟨t, r⟩
          have htf : lockFree t = true := by
            have h := lockFree_applySingleTail env m user logRef vOk
            rw [htail] at h
            exact h
          simp [htail, lockFree_append, hupf, hvf, htf]

theorem lockFree_applySingle (env : ExecEnv) (m : MigrationDefinition)
    (user logRef : String) :
    lockFree (applySingle env m user logRef).1 = true := by
  rw [applySingle_eq]
  simp [lockFree_cons, isLockEv, lockFree_applySingleBody]

theorem lockFree_applyLoop (env : ExecEnv) (user : String)
    (logRef : String → String) :
    ∀ pending, lockFree (applyLoop env user logRef pending).1 = true := by
  intro pending
  induction pending with
  | nil => rfl
  | cons m rest ih =>
    simp only [applyLoop]
    rcases hs : applySingle env m user (logRef m.migration_id) with ⟨t, r⟩
    have ht : lockFree t = true := by
      have h := lockFree_applySingle env m user (logRef m.migration_id)
      rw [hs] at h
      exact h
    cases r with
    | error e => simp [ht]
    | ok u =>
      cases u
      rcases hl : applyLoop env user logRef rest with ⟨t2, r2⟩
      rw [hl] at ih
      simp only []
      simp [lockFree_append, ht, ih]

/-- `_revert_single` is the committed running marker followed by its guarded
body. -/
theorem revertSingle_eq (env : ExecEnv) (m : MigrationDefinition)
    (user logRef : String) :
    revertSingle env m user logRef =
      (Ev.upsertRow (runningRow env m user logRef) :: Ev.commit ::
        (revertSingleBody env m user logRef).1,
       (revertSingleBody env m user logRef).2) := by
  unfold revertSingle
  rcases revertSingleBody env m user logRef with ⟨t, r⟩
  rfl

theorem lockFree_revertSingleBody (env : ExecEnv) (m : MigrationDefinition)
    (user logRef : String) :
    lockFree (revertSingleBody env m user logRef).1 = true := by
  unfold revertSingleBody
  cases hpre : runHooks env m.meta.pre_hooks with
  | error msg => exact lockFree_failureAtom env m user logRef msg
  | ok u =>
    cases u
    rcases hdown : executeSql env m.down_sql with ⟨downEvs, downRes⟩
    have hdf : lockFree downEvs = true := by
      have h := lockFree_executeSql env m.down_sql
      rw [hdown] at h
      exact h
    cases downRes with
    | error msg =>
      simp only []
      simp [failureAtom, lockFree_append, lockFree_cons, lockFree_nil,
        isLockEv, hdf]
    | ok u2 =>
      cases u2
      cases hpost : runHooks env m.meta.post_hooks with
      | error msg =>
        simp only []
        simp [failureAtom, lockFree_append, lockFree_cons, lockFree_nil,
          isLockEv, hdf]
      | ok u3 =>
        cases u3
        simp only []
        simp [lockFree_append, lockFree_cons, lockFree_nil, isLockEv, hdf]

theorem lockFree_revertSingle (env : ExecEnv) (m : MigrationDefinition)
    (user logRef : String) :
    lockFree (revertSingle env m user logRef).1 = true := by
  rw [revertSingle_eq]
  simp [lockFree_cons, isLockEv, lockFree_revertSingleBody]

theorem lockFree_revertLoop (env : ExecEnv) (user : String)
    (logRef : String → String) :
    ∀ pending, lockFree (revertLoop env user logRef pending).1 = true := by
  intro pending
  induction pending with
  | nil => rfl
  | cons m rest ih =>
    simp only [revertLoop]
    rcases hs : revertSingle env m user (logRef m.migration_id) with ⟨t, r⟩
    have ht : lockFree t = true := by
      have h := lockFree_revertSingle env m user (logRef m.migration_id)
      rw [hs] at h
      exact h
    cases r with
    | error e => simp [ht]
    | ok u =>
      cases u
      rcases hl : revertLoop env user logRef rest with ⟨t2, r2⟩
      rw [hl] at ih
      simp only []
      simp [lockFree_append, ht, ih]

/-- A lock-event-free trace that runs entirely between the acquisition and
the final release keeps every write under the lock. -/
theorem writesUnderLockAux_of_lockFree :
    ∀ t, lockFree t = true →
      writesUnderLockAux true (t ++ [Ev.releaseLock]) = true := by
  intro t
  induction t with
  | nil => intro _; rfl
  | cons e rest ih =>
    intro h
    rw [lockFree_cons, Bool.and_eq_true] at h
    cases e with
    | acquireLock => simp [isLockEv] at h
    | releaseLock => simp [isLockEv] at h
    | upsertRow row => simpa [writesUnderLockAux] using ih h.2
    | updateRow mid => simpa [writesUnderLockAux] using ih h.2
    | deleteRow mid => simpa [writesUnderLockAux] using ih h.2
    | commit => simpa [writesUnderLockAux] using ih h.2
    | rollback => simpa [writesUnderLockAux] using ih h.2
    | execScript s => simpa [writesUnderLockAux] using ih h.2

theorem writesUnderLock_nil : writesUnderLock [] = true := rfl

/-- C4, counterexample: `repair` performs its bookkeeping write (the checksum
`UPDATE`) without the advisory lock ever being acquired. -/
theorem repair_writes_without_lock_counterexample :
    writesUnderLock (repairOp [defPlain] [stAppliedA] "0001_a" true).1 =
      false ∧
    ((repairOp [defPlain] [stAppliedA] "0001_a" true).1.any isWrite) = true :=
  ⟨rfl, rfl⟩

/-- C4, amended: the per-migration bookkeeping writes of `apply` and
`rollback` all happen while the advisory lock is held, but the recovery
operations write without it: `repair`, `reset-failed`'s status reset and
`retry`'s status reset each modify a bookkeeping row with no lock ever
acquired. -/
theorem writes_lock_discipline :
    (∀ (env : ExecEnv) (p : Profile) (lockAvailable : Bool) (user : String)
       (logRef : String → String) (migrations : List MigrationDefinition)
       (states : States) (target : Option String)
       (skipNext confirmOverride nonInteractive : Bool) (input : String),
      writesUnderLock (applyOp env p lockAvailable user logRef migrations
        states target skipNext confirmOverride nonInteractive input).1 =
        true) ∧
    (∀ (env : ExecEnv) (p : Profile) (lockAvailable : Bool) (user : String)
       (logRef : String → String) (migrations : List MigrationDefinition)
       (states : States) (target : String)
       (skipNext confirmOverride nonInteractive : Bool) (input : String),
      writesUnderLock (rollbackOp env p lockAvailable user logRef migrations
        states target skipNext confirmOverride nonInteractive input).1 =
        true) ∧
    (∀ (migrations : List MigrationDefinition) (states : States)
       (mid : String) (m : MigrationDefinition),
      findMigration migrations mid = Except.ok m →
      (statesGet states mid).isSome = true →
      writesUnderLock (repairOp migrations states mid true).1 = false ∧
      ((repairOp migrations states mid true).1.any isWrite) = true) ∧
    (∀ (p : Profile) (states : States) (mid : String) (s : MigrationState)
       (input : String),
      statesGet states mid = some s →
      (confirmAction p false false false input).2 = Except.ok () →
      writesUnderLock
        (resetFailedOp p states mid false false false false input).1 = false ∧
      ((resetFailedOp p states mid false false false false input).1.any
        isWrite) = true) ∧
    (∀ (env : ExecEnv) (p : Profile) (lockAvailable : Bool) (user : String)
       (logRef : String → String) (migrations : List MigrationDefinition)
       (states : States) (mid : String) (m : MigrationDefinition)
       (st : MigrationState) (confirmOverride nonInteractive : Bool)
       (input : String),
      findMigration migrations mid = Except.ok m →
      statesGet states mid = some st →
      st.status = Status.failed →
      st.checksum = m.checksum →
      (confirmAction p confirmOverride false nonInteractive input).2 =
        Except.ok () →
      writesUnderLock (retryOp env p lockAvailable user logRef migrations
        states mid false false confirmOverride nonInteractive input).1 =
        false) := by
  refine ⟨?_, ?_, ?_, ?_, ?_⟩
  · intro env p lockAvailable user logRef migrations states target skipNext
      confirmOverride nonInteractive input
    unfold applyOp
    cases hp : pendingForApply p.allow_tags migrations states target with
    | error e => rfl
    | ok pending =>
      simp only []
      by_cases hpe : pending.isEmpty = true
      · simp [hpe, writesUnderLock_nil]
      · simp only [hpe, if_false]
        cases hc : (confirmAction p confirmOverride skipNext nonInteractive
            input).2 with
        | error e => rfl
        | ok u =>
          cases u
          by_cases hl : lockAvailable = false
          · simp [hl, writesUnderLock_nil]
          · simp only [hl, if_false]
            rcases hloop : applyLoop env user logRef pending with ⟨t, r⟩
            have ht : lockFree t = true := by
              have h := lockFree_applyLoop env user logRef pending
              rw [hloop] at h
              exact h
            simp only []
            show writesUnderLockAux false
              (Ev.acquireLock :: (t ++ [Ev.releaseLock])) = true
            have : writesUnderLockAux false
                (Ev.acquireLock :: (t ++ [Ev.releaseLock])) =
                writesUnderLockAux true (t ++ [Ev.releaseLock]) := rfl
            rw [this]
            exact writesUnderLockAux_of_lockFree t ht
  · intro env p lockAvailable user logRef migrations states target skipNext
      confirmOverride nonInteractive input
    unfold rollbackOp
    cases hp : pendingForDown p.allow_tags migrations states target with
    | error e => rfl
    | ok toRevert =>
      simp only []
      by_cases hpe : toRevert.isEmpty = true
      · simp [hpe, writesUnderLock_nil]
      · simp only [hpe, if_false]
        cases hc : (confirmAction p confirmOverride skipNext nonInteractive
            input).2 with
        | error e => rfl
        | ok u =>
          cases u
          by_cases hl : lockAvailable = false
          · simp [hl, writesUnderLock_nil]
          · simp only [hl, if_false]
            rcases hloop : revertLoop env user logRef toRevert with ⟨t, r⟩
            have ht : lockFree t = true := by
              have h := lockFree_revertLoop env user logRef toRevert
              rw [hloop] at h
              exact h
            simp only []
            show writesUnderLockAux false
              (Ev.acquireLock :: (t ++ [Ev.releaseLock])) = true
            have : writesUnderLockAux false
                (Ev.acquireLock :: (t ++ [Ev.releaseLock])) =
                writesUnderLockAux true (t ++ [Ev.releaseLock]) := rfl
            rw [this]
            exact writesUnderLockAux_of_lockFree t ht
  · intro migrations states mid m hf hsome
    unfold repairOp
    rw [hf]
    simp [hsome, writesUnderLock, writesUnderLockAux, isWrite]
  · intro p states mid s input hs hc
    unfold resetFailedOp
    rw [hs, hc]
    simp [writesUnderLock, writesUnderLockAux, isWrite]
  · intro env p lockAvailable user logRef migrations states mid m st
      confirmOverride nonInteractive input hf hs hstat hsum hc
    unfold retryOp
    rw [hf, hs]
    simp only []
    have h1 : ¬ st.status = Status.applied := by
      rw [hstat]; intro hx; cases hx
    have h2 : ¬ (st.status = Status.running ∧ True) := by
      rw [hstat]; intro hx; cases hx.1
    rw [if_neg h1, if_neg h2]
    have h3 : ¬ st.checksum ≠ m.checksum := by simp [hsum]
    rw [if_neg h3]
    simp only []
    rw [hc]
    simp only []
    rcases ha : applyOp env p lockAvailable user logRef migrations
        (resetRowStates states mid) (some mid) true confirmOverride
        nonInteractive input with ⟨t, r⟩
    simp [writesUnderLock, writesUnderLockAux, isWrite]

/-- Witness for `writes_lock_discipline`: a concrete apply keeps writes under
the lock, while a concrete repair writes with no lock acquired. -/
theorem writes_lock_discipline_witness :
    writesUnderLock (applyOp envOk pDev true "postgres" (fun _ => "log")
      [defPlain] [] none false false false "y").1 = true ∧
    writesUnderLock (repairOp [defPlain] [stAppliedA] "0001_a" true).1 =
      false :=
  ⟨writes_lock_discipline.1 envOk pDev true "postgres" (fun _ => "log")
      [defPlain] [] none false false false "y",
   (writes_lock_discipline.2.2.1 [defPlain] [stAppliedA] "0001_a" defPlain
      rfl rfl).1⟩

end PGMigrate
